import Mathlib

/-!
Verification of the vacuum-gauge RS485 protocol stack (Protocol-A = Erstevak
RS485 v1 framing, Protocol-B = Erstevak RS485 v2 PDU codec) against its
natural-language specification.  Byte strings are modelled as `List Nat`
(one element per byte value); Python exceptions are modelled with `Except`
or `Option`; Python `int(..., 10)` parsing is modelled by `pyIntOfBytes`.
-/

namespace VacuumGauge

/-- ASCII whitespace as recognised by Python's `int` parsing and `str.strip`
(space, tab, LF, VT, FF, CR). -/
def isSpace (b : Nat) : Bool :=
  b = 32 || b = 9 || b = 10 || b = 11 || b = 12 || b = 13

/-- ASCII decimal digit `'0'..'9'`. -/
def isDigit (b : Nat) : Bool :=
  decide (48 ≤ b) && decide (b ≤ 57)

/-- Value of a string of ASCII digits, most significant first. -/
def digitsNatVal (l : List Nat) : Nat :=
  l.foldl (fun acc b => acc * 10 + (b - 48)) 0

/-- Parse a non-empty run of ASCII digits; `none` otherwise. -/
def digitsVal? (l : List Nat) : Option Nat :=
  if l ≠ [] ∧ l.all isDigit then some (digitsNatVal l) else none

/-- Strip leading and trailing ASCII whitespace. -/
def trimSpace (bs : List Nat) : List Nat :=
  (((bs.dropWhile isSpace).reverse.dropWhile isSpace).reverse)

/-- Model of Python `int(bs, 10)` on a byte string: optional surrounding
whitespace, optional sign, then a non-empty digit run.  (Python additionally
accepts single underscores between digits and non-ASCII digits; no theorem
below depends on those inputs.)  `none` models a raised `ValueError`. -/
def pyIntOfBytes (bs : List Nat) : Option Int :=
  match trimSpace bs with
  | [] => none
  | b :: rest =>
      if b = 43 then (digitsVal? rest).map (fun n => (n : Int))
      else if b = 45 then (digitsVal? rest).map (fun n => -(n : Int))
      else (digitsVal? (b :: rest)).map (fun n => (n : Int))

/-- Decimal digit expansion of `n` as ASCII bytes (fuel-driven so that it
reduces definitionally). -/
def decDigitsAux : Nat → Nat → List Nat
  | 0, _ => []
  | fuel + 1, n =>
      if n < 10 then [48 + n]
      else decDigitsAux fuel (n / 10) ++ [48 + n % 10]

/-- Decimal ASCII digits of `n` (no padding), as produced by Python `str(n)`
for a natural number. -/
def decDigits (n : Nat) : List Nat := decDigitsAux (n + 1) n

/-- Left-pad with ASCII `'0'` to width `w`, as in Python `f"{n:0wd}"`. -/
def pad (w : Nat) (l : List Nat) : List Nat :=
  List.replicate (w - l.length) 48 ++ l

/-! ## Checksum (`_calc_checksum` / `_check_checksum`, framer.py lines 25-63) -/

/-- `_calc_checksum`: `sum(list(msg)) % 64 + 64`. -/
def calc_checksum (msg : List Nat) : Nat := msg.sum % 64 + 64

/-- `_check_checksum`: `_calc_checksum(msg) == cs`. -/
def check_checksum (msg : List Nat) (cs : Nat) : Bool :=
  calc_checksum msg == cs

/-- C2: For every byte string `m`, `checksum(m)` is the byte sum mod 64 plus
64, always in `[64, 127]`; and `verify(m, c)` holds iff `c = checksum(m)`. -/
theorem C2_checksum_spec (m : List Nat) (c : Nat) :
    calc_checksum m = m.sum % 64 + 64 ∧
    64 ≤ calc_checksum m ∧ calc_checksum m ≤ 127 ∧
    (check_checksum m c = true ↔ c = calc_checksum m) := by
  refine ⟨rfl, ?_, ?_, ?_⟩
  · exact Nat.le_add_left 64 _
  · have h : m.sum % 64 < 64 := Nat.mod_lt _ (by norm_num)
    unfold calc_checksum
    omega
  · unfold check_checksum
    rw [beq_iff_eq]
    exact eq_comm

/-! ## Protocol-A framer (`ErstevakASCIIFramer`, framer.py lines 95-168) -/

/-- Python exceptions that the decode paths can raise. -/
inductive PyError where
  | valueError
  | indexError
  | unicodeDecodeError
deriving DecidableEq, Repr

/-- Result quadruple of `ErstevakASCIIFramer.decode`:
`(len_used, dev_id, tid, frame_data)`. -/
structure FrameDecodeResult where
  consumed : Nat
  devId : Int
  tid : Nat
  frameData : List Nat
deriving DecidableEq, Repr

/-- Index of the first occurrence of byte `t`, as in Python `bytes.find`
(`none` models the `-1` result). -/
def find_byte (t : Nat) : List Nat → Option Nat
  | [] => none
  | b :: rest => if b = t then some 0 else (find_byte t rest).map (· + 1)

/-- `MIN_SIZE` of the Erstevak framer (framer.py line 97). -/
def MIN_SIZE : Nat := 4

/-- `ErstevakASCIIFramer.decode` (framer.py lines 124-141).  The `while True`
loop body returns on every path on its first iteration with `len_used = 0`.
`int(data_buffer[0:3], 10)` is evaluated before the checksum is read, so a
frame whose leading three bytes do not parse raises `ValueError`, and a frame
whose end delimiter is at offset 0 raises `IndexError` from `msg[-1]`. -/
def framer_decode (data : List Nat) : Except PyError FrameDecodeResult :=
  if data.length < MIN_SIZE then .ok ⟨0, 0, 0, []⟩
  else
    match find_byte 13 data with
    | none => .ok ⟨0, 0, 0, []⟩
    | some e =>
      match pyIntOfBytes (data.take 3) with
      | none => .error .valueError
      | some devId =>
        match (data.take e).getLast? with
        | none => .error .indexError
        | some checksum =>
          if check_checksum ((data.take e).dropLast) checksum then
            .ok ⟨e + 1, devId, 0, ((data.take e).dropLast).drop 3⟩
          else .ok ⟨e + 1, 0, 0, []⟩

/-- The three ASCII bytes of `f"{device_id:03d}"` (zero-padded to width 3). -/
def dev_id_bytes (device_id : Nat) : List Nat :=
  pad 3 (decDigits device_id)

/-- `ErstevakASCIIFramer.encode` (framer.py lines 143-168): 3-digit device id,
payload, one checksum byte over id+payload, `\r`; `START` is empty. -/
def framer_encode (data : List Nat) (device_id : Nat) : List Nat :=
  let dev_id := dev_id_bytes device_id
  let checksum := calc_checksum (dev_id ++ data)
  dev_id ++ data ++ [checksum] ++ [13]

/-! ## Helper lemmas -/

instance {ε α : Type} [DecidableEq ε] [DecidableEq α] : DecidableEq (Except ε α) := by
  intro a b
  cases a <;> cases b
  case error.error x y =>
    exact if h : x = y then .isTrue (by rw [h]) else
      .isFalse (fun hc => h (by injection hc))
  case error.ok x y => exact .isFalse (fun hc => by injection hc)
  case ok.error x y => exact .isFalse (fun hc => by injection hc)
  case ok.ok x y =>
    exact if h : x = y then .isTrue (by rw [h]) else
      .isFalse (fun hc => h (by injection hc))

theorem find_byte_lt {t : Nat} {l : List Nat} {e : Nat}
    (h : find_byte t l = some e) : e < l.length := by
  induction l generalizing e with
  | nil => simp [find_byte] at h
  | cons b rest ih =>
    by_cases hb : b = t
    · simp [find_byte, hb] at h
      simp [List.length_cons]
      omega
    · simp [find_byte, hb] at h
      obtain ⟨e', he', rfl⟩ := h
      have := ih he'
      simp [List.length_cons]
      omega

theorem find_byte_get? {t : Nat} {l : List Nat} {e : Nat}
    (h : find_byte t l = some e) : l.get? e = some t := by
  induction l generalizing e with
  | nil => simp [find_byte] at h
  | cons b rest ih =>
    by_cases hb : b = t
    · simp [find_byte, hb] at h
      subst h
      simp [hb]
    · simp [find_byte, hb] at h
      obtain ⟨e', he', rfl⟩ := h
      simpa using ih he'

theorem find_byte_append {t : Nat} {pre rest : List Nat} (h : ¬ t ∈ pre) :
    find_byte t (pre ++ t :: rest) = some pre.length := by
  induction pre with
  | nil => simp [find_byte]
  | cons b p ih =>
    have hb : b ≠ t := by
      intro hc
      exact h (by simp [hc])
    have hp : ¬ t ∈ p := fun hc => h (by simp [hc])
    simp [find_byte, hb, ih hp]

theorem get?_take_lt {l : List Nat} {n i : Nat} (h : i < n) :
    (l.take n).get? i = l.get? i := by
  induction l generalizing n i with
  | nil => simp
  | cons b rest ih =>
    cases n with
    | zero => omega
    | succ m =>
      cases i with
      | zero => simp
      | succ j => simpa using ih (by omega)

theorem isSpace_eq_false_of_isDigit {b : Nat} (h : isDigit b = true) :
    isSpace b = false := by
  simp [isDigit] at h
  simp [isSpace]
  omega

theorem trimSpace_of_all_digits {l : List Nat} (h : l.all isDigit = true) :
    trimSpace l = l := by
  have hdrop : l.dropWhile isSpace = l := by
    cases l with
    | nil => rfl
    | cons b rest =>
      have hb : isDigit b = true := by
        simp [List.all_cons] at h
        exact h.1
      simp [List.dropWhile, isSpace_eq_false_of_isDigit hb]
  unfold trimSpace
  rw [hdrop]
  cases hrev : l.reverse with
  | nil =>
    have : l = [] := by simpa using congrArg List.reverse hrev
    simp [this]
  | cons b rest =>
    have hb : b ∈ l := by
      have : b ∈ l.reverse := by simp [hrev]
      simpa using this
    have hbd : isDigit b = true := by
      rw [List.all_eq_true] at h
      exact h b hb
    rw [List.dropWhile]
    rw [isSpace_eq_false_of_isDigit hbd]
    rw [← hrev, List.reverse_reverse]

theorem pyInt_of_all_digits {l : List Nat} (hne : l ≠ [])
    (h : l.all isDigit = true) :
    pyIntOfBytes l = some (digitsNatVal l : Int) := by
  unfold pyIntOfBytes
  rw [trimSpace_of_all_digits h]
  cases l with
  | nil => exact absurd rfl hne
  | cons b rest =>
    have hb : isDigit b = true := by
      simp [List.all_cons] at h
      exact h.1
    have hb' : 48 ≤ b ∧ b ≤ 57 := by
      simpa [isDigit] using hb
    have h43 : b ≠ 43 := by omega
    have h45 : b ≠ 45 := by omega
    simp only [h43, h45, if_false]
    rw [digitsVal?, if_pos ⟨by simp, h⟩]
    rfl

theorem getLast?_of_ne_nil {l : List Nat} (h : l ≠ []) :
    l.getLast? = some (l.getLastD 0) := by
  rw [List.getLast?_eq_getLast _ h, List.getLastD_eq_getLast?,
    List.getLast?_eq_getLast _ h]
  rfl

/-- If the first three bytes of the buffer are decimal digits, the end
delimiter cannot occur before offset 3. -/
theorem delim_ge_three {data : List Nat} {e : Nat}
    (hfind : find_byte 13 data = some e)
    (hdig : (data.take 3).all isDigit = true) : 3 ≤ e := by
  by_contra h'
  push_neg at h'
  have hg := find_byte_get? hfind
  have hgt : (data.take 3).get? e = some 13 := by
    rw [get?_take_lt h']
    exact hg
  have hmem : (13 : Nat) ∈ data.take 3 := List.get?_mem hgt
  rw [List.all_eq_true] at hdig
  have := hdig 13 hmem
  simp [isDigit] at this

/-- If the first three bytes of the buffer are decimal digits, `data[0:e]`
(the slice up to the end delimiter) is non-empty. -/
theorem take_delim_ne_nil {data : List Nat} {e : Nat}
    (hfind : find_byte 13 data = some e)
    (hdig : (data.take 3).all isDigit = true) : data.take e ≠ [] := by
  have he3 := delim_ge_three hfind hdig
  have helt := find_byte_lt hfind
  intro hc
  have : (data.take e).length = 0 := by rw [hc]; rfl
  rw [List.length_take] at this
  omega

/-- C1 (amended): the framer decode consumes zero bytes when the buffer is
shorter than `MIN_SIZE` or has no `\r`; when a `\r` is present at offset `e`
and the three leading device-id bytes are decimal digits, it consumes exactly
`e + 1` bytes whether or not the checksum verifies, and on checksum mismatch
it returns device id 0 and an empty payload.  (Without the digit condition
the delimited case instead raises `ValueError` — see the counterexample.) -/
theorem C1_framer_decode_consumption :
    (∀ data : List Nat, data.length < 4 → framer_decode data = .ok ⟨0, 0, 0, []⟩) ∧
    (∀ data : List Nat, find_byte 13 data = none →
      framer_decode data = .ok ⟨0, 0, 0, []⟩) ∧
    (∀ (data : List Nat) (e : Nat), find_byte 13 data = some e →
      4 ≤ data.length → (data.take 3).all isDigit = true →
      (∃ r : FrameDecodeResult, framer_decode data = .ok r ∧ r.consumed = e + 1) ∧
      (check_checksum ((data.take e).dropLast) ((data.take e).getLastD 0) = false →
        framer_decode data = .ok ⟨e + 1, 0, 0, []⟩)) := by
  refine ⟨?_, ?_, ?_⟩
  · intro data hlen
    unfold framer_decode MIN_SIZE
    rw [if_pos hlen]
  · intro data hfind
    unfold framer_decode
    by_cases hlen : data.length < MIN_SIZE
    · rw [if_pos hlen]
    · rw [if_neg hlen]
      simp only [hfind]
  · intro data e hfind hlen hdig
    have he3 : 3 ≤ e := delim_ge_three hfind hdig
    have helt : e < data.length := find_byte_lt hfind
    have htk3 : (data.take 3).length = 3 := by
      rw [List.length_take]
      omega
    have htkne : data.take 3 ≠ [] := by
      intro hc
      rw [hc] at htk3
      simp at htk3
    have hpy := pyInt_of_all_digits htkne hdig
    have hmsgne : data.take e ≠ [] := take_delim_ne_nil hfind hdig
    have hlast := getLast?_of_ne_nil hmsgne
    have hframer : framer_decode data =
        if check_checksum ((data.take e).dropLast) ((data.take e).getLastD 0) then
          .ok ⟨e + 1, (digitsNatVal (data.take 3) : Int), 0,
            ((data.take e).dropLast).drop 3⟩
        else .ok ⟨e + 1, 0, 0, []⟩ := by
      unfold framer_decode MIN_SIZE
      rw [if_neg (by omega)]
      simp only [hfind, hpy, hlast]
    constructor
    · by_cases hcs :
        check_checksum ((data.take e).dropLast) ((data.take e).getLastD 0) = true
      · refine ⟨⟨e + 1, (digitsNatVal (data.take 3) : Int), 0,
          ((data.take e).dropLast).drop 3⟩, ?_, rfl⟩
        rw [hframer, if_pos hcs]
      · rw [Bool.not_eq_true] at hcs
        refine ⟨⟨e + 1, 0, 0, []⟩, ?_, rfl⟩
        rw [hframer, if_neg (by rw [hcs]; exact Bool.false_ne_true)]
    · intro hcs
      rw [hframer, if_neg (by rw [hcs]; exact Bool.false_ne_true)]

/-- Witness for C1: a short buffer, a buffer with no end delimiter, and a
delimited digit-led frame with a bad checksum (`b"001SA\r"`), exercising each
hypothesis of the theorem. -/
theorem C1_witness :
    framer_decode [48, 48, 13] = .ok ⟨0, 0, 0, []⟩ ∧
    framer_decode [48, 48, 49, 84, 64] = .ok ⟨0, 0, 0, []⟩ ∧
    framer_decode [48, 48, 49, 83, 65, 13] = .ok ⟨6, 0, 0, []⟩ := by
  obtain ⟨h1, h2, h3⟩ := C1_framer_decode_consumption
  refine ⟨h1 [48, 48, 13] (by decide), h2 [48, 48, 49, 84, 64] (by decide), ?_⟩
  exact (h3 [48, 48, 49, 83, 65, 13] 5 (by decide) (by decide) (by decide)).2
    (by decide)

/-- Counterexample for C1 as stated: `b"abcd\r"` has its end delimiter at
offset 4, but decode raises `ValueError` from `int(b"abc", 10)` instead of
consuming 5 bytes and returning a result. -/
theorem C1_counterexample :
    framer_decode [97, 98, 99, 100, 13] = .error .valueError := rfl

theorem decDigitsAux_one {fuel n : Nat} (hf : 1 ≤ fuel) (hn : n < 10) :
    decDigitsAux fuel n = [48 + n] := by
  cases fuel with
  | zero => omega
  | succ f => simp [decDigitsAux, hn]

theorem decDigitsAux_two {fuel n : Nat} (hf : 2 ≤ fuel) (h1 : 10 ≤ n)
    (h2 : n < 100) : decDigitsAux fuel n = [48 + n / 10, 48 + n % 10] := by
  cases fuel with
  | zero => omega
  | succ f =>
    rw [decDigitsAux, if_neg (by omega),
      decDigitsAux_one (by omega) (by omega)]
    rfl

theorem decDigitsAux_three {fuel n : Nat} (hf : 3 ≤ fuel) (h1 : 100 ≤ n)
    (h2 : n < 1000) :
    decDigitsAux fuel n = [48 + n / 100, 48 + n / 10 % 10, 48 + n % 10] := by
  cases fuel with
  | zero => omega
  | succ f =>
    rw [decDigitsAux, if_neg (by omega),
      decDigitsAux_two (by omega) (by omega) (by omega)]
    have : n / 10 / 10 = n / 100 := by omega
    rw [this]
    rfl

/-- For device ids 0..999, `f"{d:03d}"` is the three bytes
`'0' + d/100, '0' + d/10%10, '0' + d%10`. -/
theorem dev_id_bytes_explicit {d : Nat} (hd : d ≤ 999) :
    dev_id_bytes d = [48 + d / 100, 48 + d / 10 % 10, 48 + d % 10] := by
  unfold dev_id_bytes decDigits pad
  by_cases h1 : d < 10
  · rw [decDigitsAux_one (by omega) h1]
    have e1 : d / 100 = 0 := by omega
    have e2 : d / 10 % 10 = 0 := by omega
    have e3 : d % 10 = d := by omega
    rw [e1, e2, e3]
    rfl
  · by_cases h2 : d < 100
    · rw [decDigitsAux_two (by omega) (by omega) h2]
      have e1 : d / 100 = 0 := by omega
      have e2 : d / 10 % 10 = d / 10 := by omega
      rw [e1, e2]
      rfl
    · rw [decDigitsAux_three (by omega) (by omega) (by omega)]
      rfl

theorem dev_id_bytes_length {d : Nat} (hd : d ≤ 999) :
    (dev_id_bytes d).length = 3 := by
  rw [dev_id_bytes_explicit hd]
  rfl

theorem dev_id_bytes_all_digits {d : Nat} (hd : d ≤ 999) :
    (dev_id_bytes d).all isDigit = true := by
  rw [dev_id_bytes_explicit hd]
  have b1 : d / 100 ≤ 9 := by omega
  have b2 : d / 10 % 10 ≤ 9 := by omega
  have b3 : d % 10 ≤ 9 := by omega
  simp [isDigit]
  omega

theorem dev_id_bytes_val {d : Nat} (hd : d ≤ 999) :
    digitsNatVal (dev_id_bytes d) = d := by
  rw [dev_id_bytes_explicit hd]
  simp [digitsNatVal, List.foldl]
  omega

theorem dev_id_bytes_no_cr {d : Nat} (hd : d ≤ 999) :
    ¬ (13 : Nat) ∈ dev_id_bytes d := by
  rw [dev_id_bytes_explicit hd]
  intro hmem
  simp [List.mem_cons] at hmem
  omega

/-- Decoding a well-formed frame `ds ++ payload ++ [checksum, \r]` where the
device-id bytes parse to `dv` and neither id nor payload contains `\r`. -/
theorem framer_decode_wellformed {ds payload : List Nat} {dv : Int}
    (hlen3 : ds.length = 3) (hnods : ¬ (13 : Nat) ∈ ds)
    (hp : ¬ (13 : Nat) ∈ payload) (hpy : pyIntOfBytes ds = some dv) :
    framer_decode (ds ++ payload ++ [calc_checksum (ds ++ payload), 13]) =
      .ok ⟨payload.length + 5, dv, 0, payload⟩ := by
  have hcs13 : calc_checksum (ds ++ payload) ≠ 13 := by
    unfold calc_checksum
    omega
  have hshape : ds ++ payload ++ [calc_checksum (ds ++ payload), 13] =
      ((ds ++ payload) ++ [calc_checksum (ds ++ payload)]) ++ 13 :: [] := by
    simp
  rw [hshape]
  have hpre : ¬ (13 : Nat) ∈ (ds ++ payload) ++ [calc_checksum (ds ++ payload)] := by
    intro hmem
    rcases List.mem_append.mp hmem with hm | hm
    · rcases List.mem_append.mp hm with hm' | hm'
      · exact hnods hm'
      · exact hp hm'
    · simp at hm
      exact hcs13 hm.symm
  have hfind := @find_byte_append 13 _ [] hpre
  have hprelen : ((ds ++ payload) ++ [calc_checksum (ds ++ payload)]).length =
      payload.length + 4 := by
    simp [hlen3]
    omega
  rw [hprelen] at hfind
  have hframelen :
      (((ds ++ payload) ++ [calc_checksum (ds ++ payload)]) ++ 13 :: []).length =
        payload.length + 5 := by
    simp [hlen3]
    omega
  have htakee :
      (((ds ++ payload) ++ [calc_checksum (ds ++ payload)]) ++ 13 :: []).take
        (payload.length + 4) = (ds ++ payload) ++ [calc_checksum (ds ++ payload)] := by
    rw [← hprelen]
    exact List.take_left _ _
  have htake3 :
      (((ds ++ payload) ++ [calc_checksum (ds ++ payload)]) ++ 13 :: []).take 3 = ds := by
    have hre : ((ds ++ payload) ++ [calc_checksum (ds ++ payload)]) ++ 13 :: [] =
        ds ++ (payload ++ [calc_checksum (ds ++ payload)] ++ 13 :: []) := by
      simp
    rw [hre, ← hlen3]
    exact List.take_left _ _
  unfold framer_decode MIN_SIZE
  rw [if_neg (by rw [hframelen]; omega)]
  simp only [hfind, htake3, hpy, htakee, List.getLast?_concat, List.dropLast_concat]
  rw [if_pos (by unfold check_checksum; exact beq_self_eq_true _)]
  have hdrop : (ds ++ payload).drop 3 = payload := by
    rw [← hlen3]
    exact List.drop_left _ _
  rw [hdrop]

/-- C3 (amended): for every device id in 0..999 and every payload that does
not contain the end delimiter `\r`, encode produces the 3-digit zero-padded
device id, the payload, one checksum byte over id-digits + payload, then
`\r`, with no start delimiter; and decode maps this frame back to
`(frame length, device id, payload)`.  (A payload containing `\r` breaks the
decode half — see the counterexample.) -/
theorem C3_encode_decode_roundtrip (payload : List Nat) (d : Nat)
    (hd : d ≤ 999) (hp : ¬ (13 : Nat) ∈ payload) :
    (dev_id_bytes d).length = 3 ∧
    (dev_id_bytes d).all isDigit = true ∧
    digitsNatVal (dev_id_bytes d) = d ∧
    framer_encode payload d =
      dev_id_bytes d ++ payload ++
        [calc_checksum (dev_id_bytes d ++ payload), 13] ∧
    framer_decode (framer_encode payload d) =
      .ok ⟨(framer_encode payload d).length, (d : Int), 0, payload⟩ := by
  have hlen3 := dev_id_bytes_length hd
  have henc : framer_encode payload d =
      dev_id_bytes d ++ payload ++
        [calc_checksum (dev_id_bytes d ++ payload), 13] := by
    unfold framer_encode
    simp
  have hpy : pyIntOfBytes (dev_id_bytes d) = some (d : Int) := by
    rw [pyInt_of_all_digits (by intro hc; rw [hc] at hlen3; simp at hlen3)
      (dev_id_bytes_all_digits hd), dev_id_bytes_val hd]
  have hdec := framer_decode_wellformed hlen3 (dev_id_bytes_no_cr hd) hp hpy
  refine ⟨hlen3, dev_id_bytes_all_digits hd, dev_id_bytes_val hd, henc, ?_⟩
  rw [henc, hdec]
  have : (dev_id_bytes d ++ payload ++
      [calc_checksum (dev_id_bytes d ++ payload), 13]).length =
      payload.length + 5 := by
    simp [hlen3]
    omega
  rw [this]

/-- Witness for C3: the spec's concrete instance — decoding
`b"001T" ++ [checksum] ++ b"\r"` (checksum byte 101) consumes 6 bytes and
yields device id 1 and payload `b"T"`. -/
theorem C3_witness :
    (1 : Nat) ≤ 999 ∧ ¬ (13 : Nat) ∈ [84] ∧
    framer_encode [84] 1 = [48, 48, 49, 84, 101, 13] ∧
    framer_decode [48, 48, 49, 84, 101, 13] = .ok ⟨6, 1, 0, [84]⟩ := by
  have h := C3_encode_decode_roundtrip [84] 1 (by decide) (by decide)
  refine ⟨by decide, by decide, rfl, ?_⟩
  have hd := h.2.2.2.2
  rw [show framer_encode [84] 1 = [48, 48, 49, 84, 101, 13] from rfl] at hd
  exact hd

/-- Counterexample for C3 as stated: with payload `b"\r"` the encoded frame
decodes to `(4, 0, b"")` (the payload's `\r` is taken as the end delimiter
and the checksum fails), not to `(frame length, device id, payload)`. -/
theorem C3_counterexample :
    framer_decode (framer_encode [13] 1) = .ok ⟨4, 0, 0, []⟩ ∧
    framer_decode (framer_encode [13] 1) ≠
      .ok ⟨(framer_encode [13] 1).length, 1, 0, [13]⟩ := by
  refine ⟨rfl, ?_⟩
  intro hc
  rw [show framer_decode (framer_encode [13] 1) = .ok ⟨4, 0, 0, []⟩ from rfl] at hc
  simp at hc

/-! ## Protocol-B PDU codec (erstevak rs485 v2, request.py / decoder.py) -/

/-- Strict UTF-8 decoding of a byte string to its code points, as performed
by Python `bytes.decode()`; `none` models a raised `UnicodeDecodeError`
(RFC 3629: no overlong forms, no surrogates, at most U+10FFFF). -/
def utf8Decode : List Nat → Option (List Nat)
  | [] => some []
  | b :: rest =>
    if b < 128 then (utf8Decode rest).map (fun t => b :: t)
    else if b < 194 then none
    else if b < 224 then
      match rest with
      | c1 :: rest' =>
        if 128 ≤ c1 ∧ c1 < 192 then
          (utf8Decode rest').map (fun t => ((b - 192) * 64 + (c1 - 128)) :: t)
        else none
      | [] => none
    else if b < 240 then
      match rest with
      | c1 :: c2 :: rest' =>
        if (if b = 224 then 160 ≤ c1 ∧ c1 < 192
            else if b = 237 then 128 ≤ c1 ∧ c1 < 160
            else 128 ≤ c1 ∧ c1 < 192) ∧ 128 ≤ c2 ∧ c2 < 192 then
          (utf8Decode rest').map
            (fun t => ((b - 224) * 4096 + (c1 - 128) * 64 + (c2 - 128)) :: t)
        else none
      | _ => none
    else if b < 245 then
      match rest with
      | c1 :: c2 :: c3 :: rest' =>
        if (if b = 240 then 144 ≤ c1 ∧ c1 < 192
            else if b = 244 then 128 ≤ c1 ∧ c1 < 144
            else 128 ≤ c1 ∧ c1 < 192) ∧
            128 ≤ c2 ∧ c2 < 192 ∧ 128 ≤ c3 ∧ c3 < 192 then
          (utf8Decode rest').map
            (fun t => ((b - 240) * 262144 + (c1 - 128) * 4096 +
              (c2 - 128) * 64 + (c3 - 128)) :: t)
        else none
      | _ => none
    else none

/-- `AccessCode` enum of request.py (v2). -/
inductive AccessCode where
  | READ
  | WRITE
  | FACTORY_DEFAULT
  | BINARY
  | STREAMING
  | ERROR
deriving DecidableEq, Repr

/-- Numeric value of each access code (request.py lines 29-35). -/
def accessValue : AccessCode → Nat
  | .READ => 0
  | .WRITE => 2
  | .FACTORY_DEFAULT => 4
  | .BINARY => 8
  | .STREAMING => 6
  | .ERROR => 7

/-- `AccessCode.from_int` (request.py lines 37-56): the first member whose
value matches; member values are distinct, so the scan order is immaterial.
`none` models the raised `ValueError`. -/
def accessCodeFromInt (v : Int) : Option AccessCode :=
  if v = 0 then some .READ
  else if v = 2 then some .WRITE
  else if v = 4 then some .FACTORY_DEFAULT
  else if v = 8 then some .BINARY
  else if v = 6 then some .STREAMING
  else if v = 7 then some .ERROR
  else none

/-- `ErstevakRequest.decode` for v2 (request.py lines 221-238): the leading
byte parses as a decimal digit into `function_code`, which is decremented by
one unless it is 6 or 7; bytes 1-2 are the command, bytes 3-4 the declared
length `L`, bytes `[5, 5+L)` the data.  Returns
`(function_code, command code points, data code points)`. -/
def v2_request_decode (data : List Nat) :
    Except PyError (Int × List Nat × List Nat) :=
  match pyIntOfBytes (data.take 1) with
  | none => .error .valueError
  | some fc0 =>
    match utf8Decode ((data.drop 1).take 2) with
    | none => .error .unicodeDecodeError
    | some cmd =>
      match pyIntOfBytes ((data.drop 3).take 2) with
      | none => .error .valueError
      | some sz =>
        match utf8Decode ((data.drop 5).take sz.toNat) with
        | none => .error .unicodeDecodeError
        | some d =>
          .ok (if fc0 = 6 ∨ fc0 = 7 then fc0 else fc0 - 1, cmd, d)

/-- Access code of the reply built by `ErstevakRequest.update_datastore`
(request.py line 264): `AccessCode.from_int(self.function_code + 1)`,
applied unconditionally. -/
def reply_access_code (fc : Int) : Option AccessCode :=
  accessCodeFromInt (fc + 1)

/-- Command stored by `ErstevakRequest.__init__` (request.py lines 187-189):
`""` unless a command of length `> 1` is given, in which case its first two
characters. -/
def v2_init_command : Option (List Nat) → List Nat
  | none => []
  | some c => if 1 < c.length then c.take 2 else []

/-- `ErstevakDecodePDU.decode` for v2 (decoder.py lines 28-77) with a
registered PDU class: byte 0 is the access code, bytes 1-2 the command, and
the remainder is decoded by `ErstevakRequest`; every `ValueError`
(including `UnicodeDecodeError`), `IndexError` and `ModbusException` is
caught and yields `none`. -/
def v2_decoder_decode (frame : List Nat) :
    Option (AccessCode × List Nat × (Int × List Nat × List Nat)) :=
  match frame with
  | [] => none
  | b :: _ =>
    match accessCodeFromInt (b : Int) with
    | none => none
    | some ac =>
      match utf8Decode ((frame.drop 1).take 2) with
      | none => none
      | some cmd =>
        match utf8Decode (frame.drop 3), v2_request_decode (frame.drop 3) with
        | some _, .ok fields => some (ac, cmd, fields)
        | _, _ => none

/-! ## Numeric codec (thyracont rs485 v1 `data.py`, modelled)

The module `scietex/hal/vacuum_gauge/thyracont/rs485/v1/data.py` is not part
of the source tree here; only its test suite is.  The definitions in this
section are modelled from the specification, with the behaviour pinned by the
assertions of `tests/thyracont_rs485_v1/test_data.py`. -/

/-- Powers of ten over the rationals, defined by cases so it evaluates. -/
def qpow10 : Int → Rat
  | .ofNat n => (10 : Rat) ^ n
  | .negSucc n => 1 / (10 : Rat) ^ (n + 1)

/-- Floor of a rational (numerator floor-divided by denominator). -/
def ratFloor (q : Rat) : Int := q.num.fdiv q.den

/-- Model of Python `round` on an exact rational: round half to even. -/
def pyRound (q : Rat) : Int :=
  if q - (ratFloor q : Rat) < 1 / 2 then ratFloor q
  else if (1 : Rat) / 2 < q - (ratFloor q : Rat) then ratFloor q + 1
  else if ratFloor q % 2 = 0 then ratFloor q else ratFloor q + 1

/-- Modelled from the spec: `f_exp` of the absent thyracont `data.py` — the
decimal exponent of a value under scientific normalization (`10^e ≤ |v| <
10^(e+1)`), with `f_exp 0 = 0` as asserted by `test_f_exp_zero`.  The
candidate from `Nat.log` is corrected by at most one in each direction. -/
def f_exp (v : Rat) : Int :=
  if v = 0 then 0
  else
    let a := |v|
    let c : Int := (Nat.log 10 a.num.natAbs : Int) - (Nat.log 10 a.den : Int)
    if a < qpow10 c then c - 1 else if a < qpow10 (c + 1) then c else c + 1

/-- Modelled from the spec: `f_man` of the absent thyracont `data.py` — the
mantissa `v / 10^f_exp(v)` of scientific normalization, `0` for `v = 0`. -/
def f_man (v : Rat) : Rat := if v = 0 then 0 else v * qpow10 (-(f_exp v))

/-- Modelled from the spec: `_pressure_encode` of the absent thyracont
`data.py` — four mantissa digits `round(f_man(v) * 1000)` zero-padded,
then two biased exponent digits `f_exp(v) + 20`.  (`_pressure_encode 0 =
"000020"` as asserted by `test_pressure_encode_edge_cases`.) -/
def pressure_encode (v : Rat) : List Nat :=
  pad 4 (decDigits (pyRound (f_man v * 1000)).toNat) ++
    pad 2 (decDigits (f_exp v + 20).toNat)

/-- Modelled from the spec: `_pressure_decode` of the absent thyracont
`data.py` — a 6-character code splits into a 4-digit mantissa `m` and a
2-digit biased exponent `e`, giving `m * 10^(e - 23)`; any other length and
non-numeric fields give `none` (`test_pressure_decode_invalid`). -/
def pressure_decode (s : List Nat) : Option Rat :=
  if s.length = 6 then
    match pyIntOfBytes (s.take 4), pyIntOfBytes (s.drop 4) with
    | some m, some e => some ((m : Rat) * qpow10 (e - 23))
    | _, _ => none
  else none

/-- Modelled from the spec: `_calibration_decode` of the absent thyracont
`data.py` — parse as integer and divide by 100; non-numeric gives `none`. -/
def calibration_decode (s : List Nat) : Option Rat :=
  match pyIntOfBytes s with
  | some n => some ((n : Rat) / 100)
  | none => none

/-- C4 (amended): malformed wire input resolves to a sentinel on the decode
paths — the Protocol-B PDU decoder returns `none` for empty frames, unknown
access codes, and non-UTF-8 bytes, and the pressure/calibration decoders
return `none` for wrong-length or non-numeric strings; the Protocol-A framer
decode never raises when a frame's three device-id bytes are decimal digits,
but raises `ValueError` when they are not (see the counterexample). -/
theorem C4_decode_error_policy :
    (∀ data : List Nat, (data.take 3).all isDigit = true →
      (framer_decode data).isOk = true) ∧
    v2_decoder_decode [] = none ∧
    v2_decoder_decode [48, 77, 86, 48, 50] = none ∧
    v2_decoder_decode [0, 255, 254, 48, 48] = none ∧
    (∀ s : List Nat, s.length ≠ 6 → pressure_decode s = none) ∧
    (∀ s : List Nat, pyIntOfBytes (s.take 4) = none → pressure_decode s = none) ∧
    (∀ s : List Nat, pyIntOfBytes s = none → calibration_decode s = none) := by
  refine ⟨?_, rfl, rfl, rfl, ?_, ?_, ?_⟩
  · intro data hdig
    unfold framer_decode MIN_SIZE
    by_cases hlen : data.length < 4
    · rw [if_pos hlen]
      rfl
    · rw [if_neg hlen]
      cases hfind : find_byte 13 data with
      | none => rfl
      | some e =>
        have htkne : data.take 3 ≠ [] := by
          intro hc
          have := congrArg List.length hc
          rw [List.length_take] at this
          simp only [List.length_nil] at this
          omega
        have hpy := pyInt_of_all_digits htkne hdig
        have hmsgne := take_delim_ne_nil hfind hdig
        have hlast := getLast?_of_ne_nil hmsgne
        simp only [hpy, hlast]
        by_cases hcs : check_checksum ((data.take e).dropLast)
            ((data.take e).getLastD 0) = true
        · rw [if_pos hcs]
          rfl
        · rw [if_neg hcs]
          rfl
  · intro s h
    unfold pressure_decode
    rw [if_neg h]
  · intro s h
    unfold pressure_decode
    by_cases hl : s.length = 6
    · rw [if_pos hl]
      cases hy : pyIntOfBytes (s.drop 4) with
      | none => simp [h, hy]
      | some e => simp [h, hy]
    · rw [if_neg hl]
  · intro s h
    unfold calibration_decode
    simp only [h]

/-- Witness for C4: a digit-led valid frame decodes without error; a
five-character pressure code, a non-numeric pressure code, and a non-numeric
calibration code each decode to the `none` sentinel. -/
theorem C4_witness :
    (framer_decode [48, 48, 49, 84, 101, 13]).isOk = true ∧
    pressure_decode [49, 50, 51, 52, 53] = none ∧
    pressure_decode [97, 98, 99, 49, 50, 51] = none ∧
    calibration_decode [49, 50, 46, 51] = none := by
  obtain ⟨h1, _, _, _, h5, h6, h7⟩ := C4_decode_error_policy
  exact ⟨h1 [48, 48, 49, 84, 101, 13] (by decide),
    h5 [49, 50, 51, 52, 53] (by decide),
    h6 [97, 98, 99, 49, 50, 51] (by decide),
    h7 [49, 50, 46, 51] (by decide)⟩

/-- Counterexample for C4 as stated: the delimited frame `b"xyz!\r"` has
non-decimal device-id bytes and framer decode raises `ValueError` instead of
returning a sentinel. -/
theorem C4_counterexample :
    framer_decode [120, 121, 122, 33, 13] = .error .valueError := rfl

/-- C5 (amended): pressure-encoding the value 0.0 produces the 4-digit
mantissa "0000" followed by the 2-digit biased exponent 20 (`f_exp(0.0) = 0`
plus bias 20), i.e. the code "000020"; and pressure-decoding "000019"
returns 0.0. -/
theorem C5_zero_pressure_code :
    pressure_encode 0 = [48, 48, 48, 48, 50, 48] ∧
    pressure_decode [48, 48, 48, 48, 49, 57] = some 0 := by
  constructor
  · have h1 : f_man 0 = 0 := by simp [f_man]
    have h2 : f_exp 0 = 0 := by simp [f_exp]
    have h3 : pyRound 0 = 0 := by
      have hf : ratFloor 0 = 0 := rfl
      simp [pyRound, hf]
    rw [pressure_encode, h1, h2]
    norm_num [h3]
    rfl
  · have e1 : pyIntOfBytes [48, 48, 48, 48] = some (0 : Int) := rfl
    have e2 : pyIntOfBytes [49, 57] = some (19 : Int) := rfl
    simp [pressure_decode, e1, e2]

/-- Counterexample for C5 as stated: pressure-encoding 0.0 does not produce
"000019" (biased exponent 19); it produces "000020". -/
theorem C5_counterexample :
    pressure_encode 0 ≠ [48, 48, 48, 48, 49, 57] := by
  have h1 : f_man 0 = 0 := by simp [f_man]
  have h2 : f_exp 0 = 0 := by simp [f_exp]
  have h3 : pyRound 0 = 0 := by
    have hf : ratFloor 0 = 0 := rfl
    simp [pyRound, hf]
  rw [pressure_encode, h1, h2]
  norm_num [h3]
  decide

/-- C9 (amended): on decode the leading wire access-code digit is decremented
by one unless it is 6 (STREAMING) or 7 (ERROR), which are kept unchanged; and
the reply access code is computed by `from_int(function_code + 1)`
unconditionally — whenever it yields a code, that code's value is the request
code plus one; in particular a code-6 request yields ERROR (7) and a code-7
request yields BINARY (8), while a code-0 (READ) request yields none at all
(a raised `ValueError`). -/
theorem C9_access_code_adjustment :
    (∀ (b : Nat) (rest : List Nat) (r : Int × List Nat × List Nat),
      48 ≤ b → b ≤ 57 →
      v2_request_decode (b :: rest) = .ok r →
      r.1 = if b = 54 ∨ b = 55 then (b : Int) - 48 else (b : Int) - 49) ∧
    (∀ (fc : Int) (a : AccessCode), reply_access_code fc = some a →
      (accessValue a : Int) = fc + 1) ∧
    reply_access_code 6 = some AccessCode.ERROR ∧
    reply_access_code 7 = some AccessCode.BINARY ∧
    reply_access_code 0 = none := by
  refine ⟨?_, ?_, rfl, rfl, rfl⟩
  · intro b rest r hb1 hb2 hok
    have hbd : ([b] : List Nat).all isDigit = true := by
      simp [isDigit]
      omega
    have hpy : pyIntOfBytes [b] = some ((b : Int) - 48) := by
      rw [pyInt_of_all_digits (by simp) hbd]
      have : digitsNatVal [b] = b - 48 := by
        simp [digitsNatVal, List.foldl]
      rw [this]
      congr 1
      omega
    unfold v2_request_decode at hok
    rw [show (b :: rest).take 1 = [b] from rfl, hpy] at hok
    cases hcm : utf8Decode (rest.take 2) with
    | none => simp [hcm] at hok
    | some cmd =>
      cases hsz : pyIntOfBytes ((rest.drop 2).take 2) with
      | none => simp [hcm, hsz] at hok
      | some sz =>
        cases hdt : utf8Decode ((rest.drop 4).take sz.toNat) with
        | none => simp [hcm, hsz, hdt] at hok
        | some d =>
          simp [hcm, hsz, hdt] at hok
          rw [← hok]
          show (if (b : Int) - 48 = 6 ∨ (b : Int) - 48 = 7 then (b : Int) - 48
            else (b : Int) - 48 - 1) = _
          by_cases hb : b = 54 ∨ b = 55
          · have h67 : (b : Int) - 48 = 6 ∨ (b : Int) - 48 = 7 := by omega
            rw [if_pos h67, if_pos hb]
          · have h67 : ¬ ((b : Int) - 48 = 6 ∨ (b : Int) - 48 = 7) := by omega
            rw [if_neg h67, if_neg hb]
            omega
  · intro fc a h
    unfold reply_access_code accessCodeFromInt at h
    split_ifs at h with h0 h2 h4 h8 h6 h7
    all_goals (cases h; simp only [accessValue]; omega)

/-- Witness for C9: the wire frame `b"6MV00"` decodes with access code kept
at 6, and its reply access code is ERROR, whose value is 6 + 1. -/
theorem C9_witness :
    v2_request_decode [54, 77, 86, 48, 48] = .ok (6, [77, 86], []) ∧
    (6 : Int) = (if (54 : Nat) = 54 ∨ (54 : Nat) = 55 then (54 : Int) - 48
      else (54 : Int) - 49) ∧
    (accessValue AccessCode.ERROR : Int) = 6 + 1 := by
  obtain ⟨h1, h2, h3, _, _⟩ := C9_access_code_adjustment
  exact ⟨rfl, h1 54 [77, 86, 48, 48] (6, [77, 86], []) (by decide) (by decide) rfl,
    h2 6 AccessCode.ERROR h3⟩

/-- Counterexample for C9 as stated: a STREAMING (6) request is incremented
further — its reply access code is ERROR, i.e. 7, not 6. -/
theorem C9_counterexample :
    reply_access_code 6 = some AccessCode.ERROR ∧
    accessValue AccessCode.ERROR ≠ 6 := ⟨rfl, by decide⟩

/-- C10: constructing a Protocol-B request with a command of length exactly 1
stores the empty command; the command is kept (truncated to its first two
characters) only when its length exceeds 1; a `None` command also yields the
empty command. -/
theorem C10_init_command :
    v2_init_command none = [] ∧
    (∀ c : List Nat, c.length = 1 → v2_init_command (some c) = []) ∧
    (∀ c : List Nat, 1 < c.length → v2_init_command (some c) = c.take 2) := by
  refine ⟨rfl, ?_, ?_⟩
  · intro c hc
    show (if 1 < c.length then c.take 2 else []) = []
    rw [if_neg (by omega)]
  · intro c hc
    show (if 1 < c.length then c.take 2 else []) = c.take 2
    rw [if_pos hc]

/-- Witness for C10: the one-character command "M" is dropped, while the
three-character command "MVX" is kept truncated to "MV". -/
theorem C10_witness :
    v2_init_command (some [77]) = [] ∧
    v2_init_command (some [77, 86, 88]) = [77, 86] := by
  obtain ⟨_, h2, h3⟩ := C10_init_command
  refine ⟨h2 [77] rfl, ?_⟩
  rw [h3 [77, 86, 88] (by decide)]
  rfl

/-! ## Register model and command interpreter (modelled)

The modules `thyracont/rs485/v1/emulation_utils.py` and
`erstevak/rs485/v1/emulation_utils.py` are not part of the source tree here;
only their test suites are.  The register model below is modelled from the
specification (a flat array of 16-bit words; named offsets; 32-bit values in
adjacent word pairs), with behaviour pinned by the assertions of
`tests/thyracont_rs485_v1/test_emulation_utils.py` and
`tests/erstevak_rs485_v1/test_request.py`.  The numeric values of the
register offsets are a model choice (the spec only names them); the claims
do not depend on the particular values. -/

def REG_P : Nat := 0
def REG_SP1 : Nat := 2
def REG_SP2 : Nat := 4
def REG_CAL1 : Nat := 6
def REG_CAL2 : Nat := 7
def REG_PENNING_STATE : Nat := 8
def REG_PENNING_SYNC : Nat := 9
def REG_SP_SEL : Nat := 10
def REG_CAL_SEL : Nat := 11
def REG_ATM_SEL : Nat := 12
def REG_ZERO_SEL : Nat := 13

/-- `split_32bit`: high and low 16-bit halves of a 32-bit value, as Python
`(v >> 16) & 0xFFFF` (floor shift) and `v & 0xFFFF`. -/
def split_32bit (v : Int) : Nat × Nat :=
  (((v.fdiv 65536).fmod 65536).toNat, (v.fmod 65536).toNat)

/-- Modelled from the spec: `read_two_regs` of the absent thyracont
`emulation_utils.py` — combine two adjacent words as one unsigned 32-bit
integer, high word first (`test_read_two_regs`). -/
def read_two_regs (regs : List Nat) (addr : Nat) : Nat :=
  (regs.getD addr 0) * 65536 + regs.getD (addr + 1) 0

/-- Modelled from the spec: `write_two_regs` of the absent thyracont
`emulation_utils.py` — store a 32-bit value into two adjacent words, high
word at the lower index (`test_write_two_regs`). -/
def write_two_regs (regs : List Nat) (v : Int) (addr : Nat) : List Nat :=
  (regs.set addr (split_32bit v).1).set (addr + 1) (split_32bit v).2

/-- Modelled from the spec: the pressure write of the absent erstevak v1
emulator.  The spec does not give this dialect's word order separately; the
order here is fixed by `test_update_datastore_write_pressure`, which asserts
the LOW word at `REG_P` and the high word at `REG_P + 1`. -/
def erstevak_write_pressure (regs : List Nat) (v : Int) : List Nat :=
  (regs.set REG_P (split_32bit v).2).set (REG_P + 1) (split_32bit v).1

/-- Modelled from the spec: the erstevak v1 emulator's `m` (write pressure)
command — parse the data as an integer and store it in the pressure pair;
on a parse failure the registers are unchanged and the raw data is echoed
(`test_update_datastore_invalid_data`). -/
def erstevak_parse_m (regs : List Nat) (data : List Nat) : List Nat × List Nat :=
  match pyIntOfBytes data with
  | some v => (erstevak_write_pressure regs v, data)
  | none => (regs, data)

/-- `f"{n:06d}"`. -/
def fmt06 (n : Nat) : List Nat := pad 6 (decDigits n)

/-- Modelled from the spec: `parse_command` of the absent thyracont
`emulation_utils.py` — the command interpreter over the register model,
returning the updated registers and the response bytes.  Verb semantics
follow the spec's command table and the assertions of
`test_emulation_utils.py`: `T` returns the model identifier, `M`/`m` read and
write the pressure pair, `S`/`s` and `C`/`c` implement select-then-write for
setpoints (register pairs) and calibrations (single registers, per
`test_parse_command_read_calibration`), `I`/`i` and `W`/`w` access the
Penning state and sync registers, `j` implements the atmosphere/zero
adjustment latches with fixed valid codes ("100023" per
`test_parse_command_apply_atmosphere`, "000000" for zero), and any other
verb echoes its data unchanged.  Invalid numeric data leaves the registers
unchanged and echoes the input. -/
def parse_command (regs : List Nat) (cmd data : List Nat) :
    List Nat × List Nat :=
  if cmd = [84] then (regs, [77, 84, 77, 48, 57, 68])
  else if cmd = [77] then (regs, fmt06 (read_two_regs regs REG_P))
  else if cmd = [109] then
    match pyIntOfBytes data with
    | some v => (write_two_regs regs v REG_P, data)
    | none => (regs, data)
  else if cmd = [83] then
    if data = [49] then (regs, fmt06 (read_two_regs regs REG_SP1))
    else if data = [50] then (regs, fmt06 (read_two_regs regs REG_SP2))
    else (regs, data)
  else if cmd = [115] then
    if data.length = 1 then
      match pyIntOfBytes data with
      | some v => if v = 1 ∨ v = 2 then (regs.set REG_SP_SEL v.toNat, data)
          else (regs, data)
      | none => (regs, data)
    else if data.length = 6 then
      if regs.getD REG_SP_SEL 0 = 1 ∨ regs.getD REG_SP_SEL 0 = 2 then
        match pyIntOfBytes data with
        | some v =>
            ((write_two_regs regs v
              (if regs.getD REG_SP_SEL 0 = 1 then REG_SP1 else REG_SP2)).set
                REG_SP_SEL 0, data)
        | none => (regs, data)
      else (regs, data)
    else (regs, data)
  else if cmd = [67] then
    if data = [49] then (regs, fmt06 (regs.getD REG_CAL1 0))
    else if data = [50] then (regs, fmt06 (regs.getD REG_CAL2 0))
    else (regs, data)
  else if cmd = [99] then
    if data.length = 1 then
      match pyIntOfBytes data with
      | some v => if v = 1 ∨ v = 2 then (regs.set REG_CAL_SEL v.toNat, data)
          else (regs, data)
      | none => (regs, data)
    else
      if regs.getD REG_CAL_SEL 0 = 1 ∨ regs.getD REG_CAL_SEL 0 = 2 then
        match pyIntOfBytes data with
        | some v =>
            (((regs.set
              (if regs.getD REG_CAL_SEL 0 = 1 then REG_CAL1 else REG_CAL2)
              v.toNat)).set REG_CAL_SEL 0, data)
        | none => (regs, data)
      else (regs, data)
  else if cmd = [73] then (regs, fmt06 (regs.getD REG_PENNING_STATE 0))
  else if cmd = [105] then
    match pyIntOfBytes data with
    | some v => (regs.set REG_PENNING_STATE v.toNat, data)
    | none => (regs, data)
  else if cmd = [87] then (regs, fmt06 (regs.getD REG_PENNING_SYNC 0))
  else if cmd = [119] then
    match pyIntOfBytes data with
    | some v => (regs.set REG_PENNING_SYNC v.toNat, data)
    | none => (regs, data)
  else if cmd = [106] then
    if data = [49] then ((regs.set REG_ATM_SEL 1).set REG_ZERO_SEL 0, data)
    else if data = [48] then ((regs.set REG_ZERO_SEL 1).set REG_ATM_SEL 0, data)
    else if data.length = 6 then
      if regs.getD REG_ATM_SEL 0 = 1 then
        if data = [49, 48, 48, 48, 50, 51] then
          (write_two_regs regs 100023 REG_P, data)
        else (regs, [])
      else if regs.getD REG_ZERO_SEL 0 = 1 then
        if data = [48, 48, 48, 48, 48, 48] then
          (write_two_regs regs 0 REG_P, data)
        else (regs, [])
      else (regs, [])
    else (regs, data)
  else (regs, data)

theorem getD_set_self : ∀ (l : List Nat) (i v : Nat), i < l.length →
    (l.set i v).getD i 0 = v := by
  intro l
  induction l with
  | nil =>
    intro i v h
    simp at h
  | cons a t ih =>
    intro i v h
    cases i with
    | zero => rfl
    | succ j => exact ih j v (by simpa using h)

theorem getD_set_other : ∀ (l : List Nat) (i j v : Nat), i ≠ j →
    (l.set i v).getD j 0 = l.getD j 0 := by
  intro l
  induction l with
  | nil =>
    intro i j v _
    rfl
  | cons a t ih =>
    intro i j v h
    cases i with
    | zero =>
      cases j with
      | zero => exact absurd rfl h
      | succ j' => rfl
    | succ i' =>
      cases j with
      | zero => rfl
      | succ j' => exact ih i' j' v (by omega)

theorem int_fdiv_ofNat (m k : Nat) :
    (Int.ofNat m).fdiv (Int.ofNat k) = Int.ofNat (m / k) := by
  cases m with
  | zero => rw [Nat.zero_div]; rfl
  | succ m' => rfl

theorem int_fmod_ofNat (m k : Nat) :
    (Int.ofNat m).fmod (Int.ofNat k) = Int.ofNat (m % k) := by
  cases m with
  | zero => rw [Nat.zero_mod]; rfl
  | succ m' => rfl

theorem split_32bit_coe (n : Nat) :
    split_32bit (n : Int) = (n / 65536 % 65536, n % 65536) := by
  show ((((Int.ofNat n).fdiv (Int.ofNat 65536)).fmod (Int.ofNat 65536)).toNat,
      ((Int.ofNat n).fmod (Int.ofNat 65536)).toNat) = _
  rw [int_fdiv_ofNat, int_fmod_ofNat, int_fmod_ofNat]
  rfl

theorem digitsFold_lt : ∀ (l : List Nat) (acc : Nat), l.all isDigit = true →
    l.foldl (fun a b => a * 10 + (b - 48)) acc < (acc + 1) * 10 ^ l.length := by
  intro l
  induction l with
  | nil =>
    intro acc _
    simp
  | cons b t ih =>
    intro acc h
    simp only [List.all_cons, Bool.and_eq_true] at h
    obtain ⟨hb, ht⟩ := h
    have hb9 : b - 48 ≤ 9 := by
      simp [isDigit] at hb
      omega
    have hstep := ih (acc * 10 + (b - 48)) ht
    have h1 : acc * 10 + (b - 48) + 1 ≤ (acc + 1) * 10 := by omega
    have h2 := Nat.mul_le_mul_right (10 ^ t.length) h1
    have h3 : (acc + 1) * 10 * 10 ^ t.length = (acc + 1) * 10 ^ (t.length + 1) := by
      ring
    simp only [List.foldl_cons, List.length_cons]
    calc List.foldl (fun a b => a * 10 + (b - 48)) (acc * 10 + (b - 48)) t
        < (acc * 10 + (b - 48) + 1) * 10 ^ t.length := hstep
      _ ≤ (acc + 1) * 10 * 10 ^ t.length := h2
      _ = (acc + 1) * 10 ^ (t.length + 1) := h3

theorem digitsNatVal_lt {l : List Nat} (h : l.all isDigit = true) :
    digitsNatVal l < 10 ^ l.length := by
  have := digitsFold_lt l 0 h
  simpa [digitsNatVal] using this

theorem write_two_regs_components (regs : List Nat) (n addr : Nat)
    (h : addr + 1 < regs.length) :
    (write_two_regs regs (n : Int) addr).getD addr 0 = n / 65536 % 65536 ∧
    (write_two_regs regs (n : Int) addr).getD (addr + 1) 0 = n % 65536 := by
  unfold write_two_regs
  rw [split_32bit_coe]
  constructor
  · rw [getD_set_other _ _ _ _ (by omega)]
    exact getD_set_self _ _ _ (by omega)
  · exact getD_set_self _ _ _ (by rw [List.length_set]; omega)

theorem read_two_regs_write (regs : List Nat) (n addr : Nat)
    (h : addr + 1 < regs.length) :
    read_two_regs (write_two_regs regs (n : Int) addr) addr = n % 4294967296 := by
  obtain ⟨e1, e2⟩ := write_two_regs_components regs n addr h
  unfold read_two_regs
  rw [e1, e2]
  omega

/-- C6 (amended): 32-bit values written through the thyracont two-register
helpers occupy two consecutive words with the high-order word at the lower
register index, and reading the pair back recovers the value modulo `2^32`;
the pressure write of the erstevak v1 command interpreter, however, stores
the LOW word at the lower register index (see the counterexample). -/
theorem C6_register_pair_word_order :
    (∀ (regs : List Nat) (n addr : Nat), addr + 1 < regs.length →
      (write_two_regs regs (n : Int) addr).getD addr 0 = n / 65536 % 65536 ∧
      (write_two_regs regs (n : Int) addr).getD (addr + 1) 0 = n % 65536 ∧
      read_two_regs (write_two_regs regs (n : Int) addr) addr =
        n % 4294967296) ∧
    (∀ (regs : List Nat) (n : Nat), 1 < regs.length →
      (erstevak_write_pressure regs (n : Int)).getD REG_P 0 = n % 65536 ∧
      (erstevak_write_pressure regs (n : Int)).getD (REG_P + 1) 0 =
        n / 65536 % 65536) := by
  constructor
  · intro regs n addr h
    obtain ⟨e1, e2⟩ := write_two_regs_components regs n addr h
    exact ⟨e1, e2, read_two_regs_write regs n addr h⟩
  · intro regs n h
    unfold erstevak_write_pressure REG_P
    rw [split_32bit_coe]
    constructor
    · rw [getD_set_other _ _ _ _ (by omega)]
      exact getD_set_self _ _ _ (by omega)
    · exact getD_set_self _ _ _ (by rw [List.length_set]; omega)

/-- Witness for C6: writing `987620` (`0x000F_11E4`) through the thyracont
helper at address 2 puts the high word 15 at index 2 and the low word 4580
at index 3; the erstevak pressure write puts 4580 at index 0 and 15 at
index 1. -/
theorem C6_witness :
    (write_two_regs (List.replicate 14 0) ((987620 : Nat) : Int) 2).getD 2 0
      = 15 ∧
    (write_two_regs (List.replicate 14 0) ((987620 : Nat) : Int) 2).getD 3 0
      = 4580 ∧
    (erstevak_write_pressure (List.replicate 14 0) ((987620 : Nat) : Int)).getD
      REG_P 0 = 4580 ∧
    (erstevak_write_pressure (List.replicate 14 0) ((987620 : Nat) : Int)).getD
      (REG_P + 1) 0 = 15 := by
  obtain ⟨h1, h2⟩ := C6_register_pair_word_order
  obtain ⟨a1, a2, _⟩ := h1 (List.replicate 14 0) 987620 2 (by simp)
  obtain ⟨b1, b2⟩ := h2 (List.replicate 14 0) 987620 (by simp)
  refine ⟨?_, ?_, ?_, ?_⟩
  · rw [a1]
  · rw [a2]
  · rw [b1]
  · rw [b2]

/-- Counterexample for C6 as stated: the erstevak v1 interpreter's pressure
write of `987620` puts `987620 % 2^16 = 4580` — the LOW word — at the lower
register index `REG_P`, not the high word `987620 / 2^16 = 15`. -/
theorem C6_counterexample :
    (erstevak_write_pressure (List.replicate 14 0) (987620 : Int)).getD
      REG_P 0 = 4580 ∧
    987620 / 65536 % 65536 = 15 ∧ (4580 : Nat) ≠ 15 := ⟨rfl, rfl, by decide⟩

theorem write_two_regs_getD_other (regs : List Nat) (v : Int) (addr i : Nat)
    (h1 : addr ≠ i) (h2 : addr + 1 ≠ i) :
    (write_two_regs regs v addr).getD i 0 = regs.getD i 0 := by
  unfold write_two_regs
  rw [getD_set_other _ _ _ _ h2, getD_set_other _ _ _ _ h1]

/-- C7: the setpoint latch-then-write protocol.  A 1-digit `s` command with
index `n` (1 or 2, the existing setpoints) sets the setpoint-select register
to `n`; a following 6-digit `s` command writes the parsed value into exactly
the selected setpoint register pair and resets setpoint-select to 0, leaving
every other register unchanged; a 6-digit `s` command while setpoint-select
is 0 changes no register at all. -/
theorem C7_setpoint_latch (regs : List Nat) (h14 : regs.length = 14)
    (n : Nat) (hn : n = 1 ∨ n = 2) (code : List Nat)
    (hlen : code.length = 6) (hdig : code.all isDigit = true) :
    (parse_command regs [115] [48 + n]).1.getD REG_SP_SEL 0 = n ∧
    (read_two_regs
        (parse_command (parse_command regs [115] [48 + n]).1 [115] code).1
        (if n = 1 then REG_SP1 else REG_SP2) = digitsNatVal code ∧
      (parse_command (parse_command regs [115] [48 + n]).1 [115] code).1.getD
        REG_SP_SEL 0 = 0 ∧
      (∀ i : Nat, i ≠ (if n = 1 then REG_SP1 else REG_SP2) →
        i ≠ (if n = 1 then REG_SP1 else REG_SP2) + 1 → i ≠ REG_SP_SEL →
        (parse_command (parse_command regs [115] [48 + n]).1 [115] code).1.getD
          i 0 = regs.getD i 0)) ∧
    (∀ regs0 : List Nat, regs0.getD REG_SP_SEL 0 = 0 →
      parse_command regs0 [115] code = (regs0, code)) := by
  have hcne : code ≠ [] := by
    intro hc
    rw [hc] at hlen
    exact absurd hlen (by decide)
  have hpyc := pyInt_of_all_digits hcne hdig
  have hbound : digitsNatVal code < 4294967296 := by
    have hv := digitsNatVal_lt hdig
    have h10 : (10 : Nat) ^ code.length = 1000000 := by
      rw [hlen]
      norm_num
    rw [h10] at hv
    omega
  have hunlatched : ∀ regs0 : List Nat, regs0.getD REG_SP_SEL 0 = 0 →
      parse_command regs0 [115] code = (regs0, code) := by
    intro regs0 h0
    unfold parse_command
    rw [if_neg (by decide), if_neg (by decide), if_neg (by decide),
      if_neg (by decide), if_pos rfl, if_neg (by omega), if_pos hlen, h0,
      if_neg (by norm_num)]
  rcases hn with rfl | rfl
  · have hr1len : (regs.set REG_SP_SEL 1).length = 14 := by
      rw [List.length_set, h14]
    have hr1sel : (regs.set REG_SP_SEL 1).getD REG_SP_SEL 0 = 1 :=
      getD_set_self _ _ _ (by show 10 < regs.length; omega)
    have hstep2 : parse_command (regs.set REG_SP_SEL 1) [115] code =
        ((write_two_regs (regs.set REG_SP_SEL 1) (digitsNatVal code : Int)
          REG_SP1).set REG_SP_SEL 0, code) := by
      unfold parse_command
      rw [if_neg (by decide), if_neg (by decide), if_neg (by decide),
        if_neg (by decide), if_pos rfl, if_neg (by omega), if_pos hlen,
        hr1sel, if_pos (by norm_num), hpyc]
      rfl
    have hg : (parse_command (parse_command regs [115] [48 + 1]).1
        [115] code).1 =
        (write_two_regs (regs.set REG_SP_SEL 1) (digitsNatVal code : Int)
          REG_SP1).set REG_SP_SEL 0 := by
      rw [show (parse_command regs [115] [48 + 1]).1 = regs.set REG_SP_SEL 1
        from rfl, hstep2]
    have hwlen : (write_two_regs (regs.set REG_SP_SEL 1)
        (digitsNatVal code : Int) REG_SP1).length = 14 := by
      unfold write_two_regs
      rw [List.length_set, List.length_set, hr1len]
    obtain ⟨e1, e2⟩ := write_two_regs_components (regs.set REG_SP_SEL 1)
      (digitsNatVal code) REG_SP1 (by rw [hr1len]; decide)
    refine ⟨hr1sel, ⟨?_, ?_, ?_⟩, hunlatched⟩
    · show read_two_regs ((parse_command (parse_command regs [115] [48 + 1]).1
        [115] code).1) REG_SP1 = digitsNatVal code
      rw [hg]
      unfold read_two_regs
      rw [getD_set_other _ _ _ _ (by decide), getD_set_other _ _ _ _ (by decide),
        e1, e2]
      omega
    · rw [hg]
      exact getD_set_self _ _ _ (by rw [hwlen]; decide)
    · intro i h1 h2 h3
      have h1' : i ≠ REG_SP1 := h1
      have h2' : i ≠ REG_SP1 + 1 := h2
      rw [hg, getD_set_other _ _ _ _ (Ne.symm h3),
        write_two_regs_getD_other _ _ _ _ (Ne.symm h1') (Ne.symm h2'),
        getD_set_other _ _ _ _ (Ne.symm h3)]
  · have hr1len : (regs.set REG_SP_SEL 2).length = 14 := by
      rw [List.length_set, h14]
    have hr1sel : (regs.set REG_SP_SEL 2).getD REG_SP_SEL 0 = 2 :=
      getD_set_self _ _ _ (by show 10 < regs.length; omega)
    have hstep2 : parse_command (regs.set REG_SP_SEL 2) [115] code =
        ((write_two_regs (regs.set REG_SP_SEL 2) (digitsNatVal code : Int)
          REG_SP2).set REG_SP_SEL 0, code) := by
      unfold parse_command
      rw [if_neg (by decide), if_neg (by decide), if_neg (by decide),
        if_neg (by decide), if_pos rfl, if_neg (by omega), if_pos hlen,
        hr1sel, if_pos (by norm_num), hpyc]
      rfl
    have hg : (parse_command (parse_command regs [115] [48 + 2]).1
        [115] code).1 =
        (write_two_regs (regs.set REG_SP_SEL 2) (digitsNatVal code : Int)
          REG_SP2).set REG_SP_SEL 0 := by
      rw [show (parse_command regs [115] [48 + 2]).1 = regs.set REG_SP_SEL 2
        from rfl, hstep2]
    have hwlen : (write_two_regs (regs.set REG_SP_SEL 2)
        (digitsNatVal code : Int) REG_SP2).length = 14 := by
      unfold write_two_regs
      rw [List.length_set, List.length_set, hr1len]
    obtain ⟨e1, e2⟩ := write_two_regs_components (regs.set REG_SP_SEL 2)
      (digitsNatVal code) REG_SP2 (by rw [hr1len]; decide)
    refine ⟨hr1sel, ⟨?_, ?_, ?_⟩, hunlatched⟩
    · show read_two_regs ((parse_command (parse_command regs [115] [48 + 2]).1
        [115] code).1) REG_SP2 = digitsNatVal code
      rw [hg]
      unfold read_two_regs
      rw [getD_set_other _ _ _ _ (by decide), getD_set_other _ _ _ _ (by decide),
        e1, e2]
      omega
    · rw [hg]
      exact getD_set_self _ _ _ (by rw [hwlen]; decide)
    · intro i h1 h2 h3
      have h1' : i ≠ REG_SP2 := h1
      have h2' : i ≠ REG_SP2 + 1 := h2
      rw [hg, getD_set_other _ _ _ _ (Ne.symm h3),
        write_two_regs_getD_other _ _ _ _ (Ne.symm h1') (Ne.symm h2'),
        getD_set_other _ _ _ _ (Ne.symm h3)]

/-- Witness for C7: from an all-zero register file, `s "1"` latches
setpoint-select to 1; `s "123422"` then writes 123422 into the setpoint-1
pair and clears the latch; an unlatched `s "123422"` is a no-op echo. -/
theorem C7_witness :
    (parse_command (List.replicate 14 0) [115] [49]).1.getD REG_SP_SEL 0 = 1 ∧
    read_two_regs (parse_command (parse_command (List.replicate 14 0) [115]
      [49]).1 [115] [49, 50, 51, 52, 50, 50]).1 REG_SP1 = 123422 ∧
    (parse_command (parse_command (List.replicate 14 0) [115] [49]).1 [115]
      [49, 50, 51, 52, 50, 50]).1.getD REG_SP_SEL 0 = 0 ∧
    parse_command (List.replicate 14 0) [115] [49, 50, 51, 52, 50, 50] =
      (List.replicate 14 0, [49, 50, 51, 52, 50, 50]) := by
  have h := C7_setpoint_latch (List.replicate 14 0) (by simp) 1 (Or.inl rfl)
    [49, 50, 51, 52, 50, 50] rfl (by decide)
  obtain ⟨h1, ⟨h2, h3, _⟩, h4⟩ := h
  exact ⟨h1, h2, h3, h4 (List.replicate 14 0) (by decide)⟩

/-- C8: for the write-type commands that require a number (`m`, `s`, `c`,
`i`, `w`), non-numeric data leaves every register unchanged and the response
echoes the raw input unmodified — the write is all-or-nothing — both in the
thyracont interpreter and in the erstevak v1 pressure write. -/
theorem C8_invalid_write_all_or_nothing :
    (∀ (regs cmd data : List Nat),
      cmd = [109] ∨ cmd = [115] ∨ cmd = [99] ∨ cmd = [105] ∨ cmd = [119] →
      pyIntOfBytes data = none →
      parse_command regs cmd data = (regs, data)) ∧
    (∀ (regs data : List Nat), pyIntOfBytes data = none →
      erstevak_parse_m regs data = (regs, data)) := by
  constructor
  · intro regs cmd data hcmd hdata
    rcases hcmd with rfl | rfl | rfl | rfl | rfl
    · unfold parse_command
      rw [if_neg (by decide), if_neg (by decide), if_pos rfl, hdata]
    · unfold parse_command
      rw [if_neg (by decide), if_neg (by decide), if_neg (by decide),
        if_neg (by decide), if_pos rfl]
      by_cases hl1 : data.length = 1
      · rw [if_pos hl1, hdata]
      · rw [if_neg hl1]
        by_cases hl6 : data.length = 6
        · rw [if_pos hl6]
          by_cases hsel : regs.getD REG_SP_SEL 0 = 1 ∨
              regs.getD REG_SP_SEL 0 = 2
          · rw [if_pos hsel, hdata]
          · rw [if_neg hsel]
        · rw [if_neg hl6]
    · unfold parse_command
      rw [if_neg (by decide), if_neg (by decide), if_neg (by decide),
        if_neg (by decide), if_neg (by decide), if_neg (by decide),
        if_pos rfl]
      by_cases hl1 : data.length = 1
      · rw [if_pos hl1, hdata]
      · rw [if_neg hl1]
        by_cases hsel : regs.getD REG_CAL_SEL 0 = 1 ∨
            regs.getD REG_CAL_SEL 0 = 2
        · rw [if_pos hsel, hdata]
        · rw [if_neg hsel]
    · unfold parse_command
      rw [if_neg (by decide), if_neg (by decide), if_neg (by decide),
        if_neg (by decide), if_neg (by decide), if_neg (by decide),
        if_neg (by decide), if_neg (by decide), if_pos rfl, hdata]
    · unfold parse_command
      rw [if_neg (by decide), if_neg (by decide), if_neg (by decide),
        if_neg (by decide), if_neg (by decide), if_neg (by decide),
        if_neg (by decide), if_neg (by decide), if_neg (by decide),
        if_neg (by decide), if_pos rfl, hdata]
  · intro regs data hdata
    unfold erstevak_parse_m
    rw [hdata]

/-- Witness for C8: `m` with the non-numeric data "abc123" echoes the input
and leaves the all-zero register file unchanged, in both dialects. -/
theorem C8_witness :
    parse_command (List.replicate 14 0) [109] [97, 98, 99, 49, 50, 51] =
      (List.replicate 14 0, [97, 98, 99, 49, 50, 51]) ∧
    erstevak_parse_m (List.replicate 14 0) [97, 98, 99, 49, 50, 51] =
      (List.replicate 14 0, [97, 98, 99, 49, 50, 51]) := by
  obtain ⟨h1, h2⟩ := C8_invalid_write_all_or_nothing
  exact ⟨h1 _ _ _ (Or.inl rfl) (by decide), h2 _ _ (by decide)⟩

end VacuumGauge
